import Mathlib

/-!
Verification development for the MCP bridge core (mcp_client.py, plugin.py).

Shallow embedding notes:
* Python machine floats (durations, rates, timestamps) are modelled as `ℚ`.
* Python dicts are modelled as association lists with dict semantics
  (`dictInsert` overwrites in place, new keys append at the end, matching
  insertion-ordered Python dicts / `OrderedDict`).
* External effects (the remote MCP transport, wall-clock time) are passed in
  explicitly as oracle arguments, so every operation is a pure function of
  state, oracle outcome, and the current time.
-/

namespace MCPBridge

/-- Embeds `ToolCallStats` (mcp_client.py lines 73-107): the dataclass stores
only raw counters, the last call timestamp and the last error; there is no
stored success-rate or average-duration field. -/
structure ToolCallStats where
  tool_key : String
  total_calls : Nat := 0
  success_calls : Nat := 0
  failed_calls : Nat := 0
  total_duration_ms : ℚ := 0
  last_call_time : Option ℚ := none
  last_error : Option String := none
deriving Repr, DecidableEq

namespace ToolCallStats

/-- Embeds the `success_rate` property: `0.0` when `total_calls == 0`,
otherwise `(success_calls / total_calls) * 100`, recomputed on each read. -/
def success_rate (s : ToolCallStats) : ℚ :=
  if s.total_calls = 0 then 0
  else ((s.success_calls : ℚ) / (s.total_calls : ℚ)) * 100

/-- Embeds the `avg_duration_ms` property: `0.0` when `success_calls == 0`,
otherwise `total_duration_ms / success_calls`. -/
def avg_duration_ms (s : ToolCallStats) : ℚ :=
  if s.success_calls = 0 then 0
  else s.total_duration_ms / (s.success_calls : ℚ)

/-- Embeds `ToolCallStats.record_call`.  `now` stands for the `time.time()`
value read inside the method. -/
def record_call (s : ToolCallStats) (success : Bool) (duration_ms : ℚ)
    (error : Option String) (now : ℚ) : ToolCallStats :=
  let s := { s with total_calls := s.total_calls + 1, last_call_time := some now }
  if success then
    { s with success_calls := s.success_calls + 1,
             total_duration_ms := s.total_duration_ms + duration_ms }
  else
    { s with failed_calls := s.failed_calls + 1, last_error := error }

end ToolCallStats

/-- One `record_call` invocation: success flag, duration, error message, and
the wall-clock time at which it was recorded. -/
structure CallEvent where
  success : Bool
  duration_ms : ℚ
  error : Option String
  now : ℚ
deriving Repr, DecidableEq

/-- Replays a sequence of `record_call` invocations on a `ToolCallStats`. -/
def applyCalls (s : ToolCallStats) : List CallEvent → ToolCallStats
  | [] => s
  | e :: es => applyCalls (s.record_call e.success e.duration_ms e.error e.now) es

/-- The freshly initialised statistics record for a tool,
`ToolCallStats(tool_key=tool.name)` (mcp_client.py line 368). -/
def initStats (key : String) : ToolCallStats := { tool_key := key }

/-- Embeds `ServerStats` (mcp_client.py lines 123-152). -/
structure ServerStats where
  server_name : String
  connect_count : Nat := 0
  disconnect_count : Nat := 0
  reconnect_count : Nat := 0
  last_connect_time : Option ℚ := none
  last_disconnect_time : Option ℚ := none
  last_heartbeat_time : Option ℚ := none
  consecutive_failures : Nat := 0
deriving Repr, DecidableEq

namespace ServerStats

/-- Embeds `ServerStats.record_connect`. -/
def record_connect (s : ServerStats) (now : ℚ) : ServerStats :=
  { s with connect_count := s.connect_count + 1,
           last_connect_time := some now,
           consecutive_failures := 0 }

/-- Embeds `ServerStats.record_disconnect`. -/
def record_disconnect (s : ServerStats) (now : ℚ) : ServerStats :=
  { s with disconnect_count := s.disconnect_count + 1,
           last_disconnect_time := some now }

/-- Embeds `ServerStats.record_reconnect`. -/
def record_reconnect (s : ServerStats) : ServerStats :=
  { s with reconnect_count := s.reconnect_count + 1,
           consecutive_failures := 0 }

/-- Embeds `ServerStats.record_failure`. -/
def record_failure (s : ServerStats) : ServerStats :=
  { s with consecutive_failures := s.consecutive_failures + 1 }

/-- Embeds `ServerStats.record_heartbeat`. -/
def record_heartbeat (s : ServerStats) (now : ℚ) : ServerStats :=
  { s with last_heartbeat_time := some now }

end ServerStats

/-! ### Association lists with Python-dict semantics -/

/-- `d[k] = v` on an insertion-ordered Python dict: overwrites in place when
the key is present, otherwise appends at the end. -/
def dictInsert {α : Type} (k : String) (v : α) : List (String × α) → List (String × α)
  | [] => [(k, v)]
  | (k', v') :: rest =>
      if k' = k then (k, v) :: rest else (k', v') :: dictInsert k v rest

/-- `d.get(k)` on a Python dict. -/
def dictGet {α : Type} (k : String) : List (String × α) → Option α
  | [] => none
  | (k', v') :: rest => if k' = k then some v' else dictGet k rest

/-- `k in d` on a Python dict. -/
def dictHas {α : Type} (k : String) (d : List (String × α)) : Bool :=
  (dictGet k d).isSome

/-- The key list of a Python dict, in storage order. -/
def dictKeys {α : Type} (d : List (String × α)) : List String :=
  d.map Prod.fst

/-! ### Session model

`MCPClientSession` holds a connected flag, the fetched tool list, per-server
connection statistics, and a per-tool statistics dict.  The underlying MCP
transport is external: its behaviour enters the model as oracle arguments. -/

/-- The session-local state of one `MCPClientSession`.  `enabled` is the
session's `config.enabled`; `call_timeout` the per-call timeout handed to
`__init__`. -/
structure SessionState where
  server_name : String
  enabled : Bool := true
  call_timeout : ℚ := 60
  connected : Bool := false
  tools : List String := []
  stats : ServerStats
  tool_stats : List (String × ToolCallStats) := []
deriving Repr, DecidableEq

/-- A fresh session for `server_name`, as built by `MCPClientSession.__init__`. -/
def initSession (server_name : String) : SessionState :=
  { server_name := server_name, stats := { server_name := server_name } }

/-- Embeds the statistics-initialisation loop of `_fetch_tools`
(mcp_client.py lines 358-369): record each fetched tool and create its
`ToolCallStats` entry unless one already exists. -/
def fetchTools (st : SessionState) (fetched : List String) : SessionState :=
  { st with
      tools := fetched,
      tool_stats := fetched.foldl
        (fun ts name => if dictHas name ts then ts else dictInsert name (initStats name) ts)
        st.tool_stats }

/-- Outcome of one attempt to open the transport and handshake: `some tools`
when the transport connects and `list_tools` returns `tools`, `none` when any
step of `_connect_*` raises or reports failure. -/
def ConnectOutcome := Option (List String)

/-- Embeds `MCPClientSession.connect` (mcp_client.py lines 205-233): a no-op
returning success when already connected; otherwise the transport is opened
(`outcome` oracle), tools are fetched on success, and `ServerStats` records a
connect on success or a failure on any failed/raised attempt. -/
def connect (st : SessionState) (outcome : ConnectOutcome) (now : ℚ) :
    Bool × SessionState :=
  if st.connected then (true, st)
  else
    match outcome with
    | some fetched =>
        let st := fetchTools st fetched
        (true, { st with connected := true, stats := st.stats.record_connect now })
    | none =>
        (false, { st with connected := false, stats := st.stats.record_failure })

/-- Embeds `MCPClientSession.check_health` (mcp_client.py lines 375-396):
returns false immediately when not connected; otherwise issues `list_tools`
(`healthy` oracle) — on success records a heartbeat, on failure marks the
session disconnected and records a disconnect. -/
def check_health (st : SessionState) (healthy : Bool) (now : ℚ) :
    Bool × SessionState :=
  if ¬st.connected then (false, st)
  else if healthy then (true, { st with stats := st.stats.record_heartbeat now })
  else (false, { st with connected := false,
                         stats := st.stats.record_disconnect now })

/-- Embeds `MCPClientSession.disconnect` + `_cleanup` (mcp_client.py lines
456-500): records a disconnect only when currently connected, then clears the
connection state and the tool list. -/
def disconnect (st : SessionState) (now : ℚ) : SessionState :=
  let stats := if st.connected then st.stats.record_disconnect now else st.stats
  { st with connected := false, tools := [], stats := stats }

/-! ### JSON values and `json.dumps(..., sort_keys=True)`

Argument dictionaries are JSON-shaped Python values.  The type is given as a
mutual inductive (instead of nesting `List`) so that serialization is plain
structural recursion, which the kernel can evaluate. -/

mutual
/-- A JSON-shaped Python value (argument dictionaries and their contents). -/
inductive JsonVal : Type where
  | jnull : JsonVal
  | jbool : Bool → JsonVal
  | jint : Int → JsonVal
  | jstr : String → JsonVal
  | jarr : JsonArr → JsonVal
  | jobj : JsonObj → JsonVal

/-- A JSON array: a list of `JsonVal`. -/
inductive JsonArr : Type where
  | nil : JsonArr
  | cons : JsonVal → JsonArr → JsonArr

/-- A JSON object: an insertion-ordered list of key/value pairs. -/
inductive JsonObj : Type where
  | nil : JsonObj
  | cons : String → JsonVal → JsonObj → JsonObj
end

/-- The fields of a JSON object as an ordinary association list. -/
def listToObj : List (String × JsonVal) → JsonObj
  | [] => .nil
  | (k, v) :: rest => .cons k v (listToObj rest)

/-- Hex digit used by `\uXXXX` escapes of control characters. -/
def hexDigit (n : Nat) : Char :=
  if n < 10 then Char.ofNat (48 + n) else Char.ofNat (87 + n)

/-- Embeds the escaping `json.dumps` applies to one character of a string
(`ensure_ascii=False`): quote, backslash and the named control escapes get a
backslash form, other control characters a `\uXXXX` form, and everything else
passes through verbatim. -/
def escapeChar (c : Char) : String :=
  if c = '"' then "\\\""
  else if c = '\\' then "\\\\"
  else if c = '\n' then "\\n"
  else if c = '\r' then "\\r"
  else if c = '\t' then "\\t"
  else if c.toNat = 8 then "\\b"
  else if c.toNat = 12 then "\\f"
  else if c.toNat < 32 then
    "\\u00" ++ String.mk [hexDigit (c.toNat / 16), hexDigit (c.toNat % 16)]
  else String.mk [c]

/-- A JSON string literal as produced by `json.dumps`. -/
def jsonQuote (s : String) : String :=
  "\"" ++ String.join (s.toList.map escapeChar) ++ "\""

/-- Lexicographic comparison of two character lists by Unicode code point,
exactly how Python compares the key strings when sorting `d.items()`. -/
def charListLe : List Char → List Char → Bool
  | [], _ => true
  | _ :: _, [] => false
  | a :: as, b :: bs =>
      if a.toNat = b.toNat then charListLe as bs
      else decide (a.toNat < b.toNat)

/-- Python's `s1 <= s2` on strings: code-point lexicographic order. -/
def strLeB (a b : String) : Bool := charListLe a.toList b.toList

/-- The stable by-key sort `sorted(d.items())` that `sort_keys=True` performs
on the fields of every object.  (CPython's sort is a stable comparison sort;
any stable sort by key is extensionally the same function, and with unique
keys stability is irrelevant.) -/
def sortPairs (l : List (String × String)) : List (String × String) :=
  List.insertionSort (fun a b => strLeB a.1 b.1 = true) l

mutual
/-- Embeds `json.dumps(v, sort_keys=True, ensure_ascii=False)` with the
default separators `", "` and `": "`: object fields are rendered, then
emitted in by-key sorted order. -/
def dumpsVal : JsonVal → String
  | .jnull => "null"
  | .jbool true => "true"
  | .jbool false => "false"
  | .jint n => toString n
  | .jstr s => jsonQuote s
  | .jarr xs => "[" ++ String.intercalate ", " (dumpsArr xs) ++ "]"
  | .jobj fs =>
      "\x7b" ++
        String.intercalate ", "
          ((sortPairs (dumpsFields fs)).map fun kv => jsonQuote kv.1 ++ ": " ++ kv.2) ++
      "\x7d"

/-- Renders each element of a JSON array. -/
def dumpsArr : JsonArr → List String
  | .nil => []
  | .cons v rest => dumpsVal v :: dumpsArr rest

/-- Renders each field of a JSON object to a (key, rendered value) pair. -/
def dumpsFields : JsonObj → List (String × String)
  | .nil => []
  | .cons k v rest => (k, dumpsVal v) :: dumpsFields rest
end

/-- Stands for `hashlib.md5(content.encode()).hexdigest()`.  The digest is a
deterministic function of the content string, and every property proved here
depends only on that; the model therefore keeps the content string itself as
the digest. -/
def md5Model (content : String) : String := content

/-- Embeds `ToolCallCache._generate_key` (plugin.py lines 230-234):
`md5(f"{tool_name}:{json.dumps(args, sort_keys=True, ensure_ascii=False)}")`.
`args` is the argument dictionary. -/
def generateKey (tool_name : String) (args : List (String × JsonVal)) : String :=
  md5Model (tool_name ++ ":" ++ dumpsVal (.jobj (listToObj args)))

/-! ### `fnmatch.fnmatch` glob matching

The patterns this repository uses are literals and `*`/`?` wildcards; the
model covers exactly those constructs (POSIX `[seq]` classes are unused). -/

/-- All suffixes of a list, longest first (including the list itself and
`[]`). -/
def sufs {α : Type} : List α → List (List α)
  | [] => [[]]
  | c :: s => (c :: s) :: sufs s

/-- Glob matching of a pattern (first argument) against a string, both as
character lists: `*` matches any run (the `.*` of `fnmatch.translate`, i.e.
some suffix split works), `?` any single character, and any other character
only itself.  The whole string must be consumed (`re.match ... \Z`). -/
def globMatch : List Char → List Char → Bool
  | [], s => s.isEmpty
  | '*' :: ps, s => (sufs s).any fun t => globMatch ps t
  | '?' :: ps, s => match s with | [] => false | _ :: s' => globMatch ps s'
  | p :: ps, s =>
      match s with
      | [] => false
      | c :: s' => decide (p = c) && globMatch ps s'

/-- `fnmatch.fnmatch(name, pattern)` on the patterns used here. -/
def fnmatchB (name pat : String) : Bool :=
  globMatch pat.toList name.toList

/-! ### Tool-call cache (`ToolCallCache`, plugin.py lines 139-267) -/

/-- Embeds `CacheEntry` (plugin.py lines 139-147). -/
structure CacheEntry where
  tool_name : String
  args_hash : String
  result : String
  created_at : ℚ
  expires_at : ℚ
  hit_count : Nat := 0
deriving Repr, DecidableEq

/-- The state of a `ToolCallCache`: the `OrderedDict` is an association list
whose front is the least recently used entry and whose back the most
recently used one. -/
structure CacheState where
  entries : List (String × CacheEntry) := []
  max_entries : Nat := 200
  ttl : ℚ := 300
  enabled : Bool := false
  exclude_patterns : List String := []
  hits : Nat := 0
  misses : Nat := 0
deriving Repr, DecidableEq

/-- `del d[k]` on a dict with unique keys. -/
def dictDelete {α : Type} (k : String) (d : List (String × α)) : List (String × α) :=
  d.filter fun p => !(p.1 == k)

/-- Embeds `ToolCallCache._is_excluded`: true when any configured glob
pattern matches the tool name. -/
def isExcluded (pats : List String) (tool_name : String) : Bool :=
  pats.any fun p => fnmatchB tool_name p

/-- Embeds `ToolCallCache._evict_if_needed`'s LRU loop
`while len(self._cache) >= self._max_entries: self._cache.popitem(last=False)`:
drop entries from the least-recently-used end while at or above capacity.
(With `max_entries = 0` CPython would raise `KeyError` from `popitem` on the
emptied dict; the model stops at the empty dict, a state the configuration
surface never produces.) -/
def evictLRU (maxE : Nat) : List (String × CacheEntry) → List (String × CacheEntry)
  | [] => []
  | x :: xs => if maxE ≤ (x :: xs).length then evictLRU maxE xs else x :: xs

/-- Embeds `ToolCallCache._evict_if_needed` (plugin.py lines 243-253): purge
every already-expired entry, then evict from the LRU end until under
capacity. -/
def evictIfNeeded (c : CacheState) (now : ℚ) : List (String × CacheEntry) :=
  evictLRU c.max_entries
    (c.entries.filter fun p => decide (now ≤ p.2.expires_at))

/-- Embeds `ToolCallCache.get` (plugin.py lines 168-195).  Returns the cached
result (or `None`) and the successor cache state; `now` is `time.time()`. -/
def cacheGet (c : CacheState) (now : ℚ) (tool_name : String)
    (args : List (String × JsonVal)) : Option String × CacheState :=
  if ¬c.enabled then (none, c)
  else if isExcluded c.exclude_patterns tool_name then (none, c)
  else
    let key := generateKey tool_name args
    match dictGet key c.entries with
    | none => (none, { c with misses := c.misses + 1 })
    | some e =>
        if e.expires_at < now then
          (none, { c with entries := dictDelete key c.entries,
                          misses := c.misses + 1 })
        else
          (some e.result,
           { c with
               entries := dictDelete key c.entries ++
                 [(key, { e with hit_count := e.hit_count + 1 })],
               hits := c.hits + 1 })

/-- The `CacheEntry(tool_name=…, args_hash=key, result=…, created_at=now,
expires_at=now + ttl)` literal built inside `ToolCallCache.set`. -/
def mkCacheEntry (tool_name key result : String) (now ttl : ℚ) : CacheEntry :=
  { tool_name := tool_name, args_hash := key, result := result,
    created_at := now, expires_at := now + ttl }

/-- Embeds `ToolCallCache.set` (plugin.py lines 197-223): no-op when disabled
or excluded; an existing key is overwritten and moved to the MRU end;
otherwise `_evict_if_needed` runs and the new entry is appended at the MRU
end. -/
def cacheSet (c : CacheState) (now : ℚ) (tool_name : String)
    (args : List (String × JsonVal)) (result : String) : CacheState :=
  if ¬c.enabled then c
  else if isExcluded c.exclude_patterns tool_name then c
  else
    let key := generateKey tool_name args
    let entry := mkCacheEntry tool_name key result now c.ttl
    if dictHas key c.entries then
      { c with entries := dictDelete key c.entries ++ [(key, entry)] }
    else
      { c with entries := evictIfNeeded c now ++ [(key, entry)] }

/-! ### Permission checker (`PermissionChecker`, plugin.py lines 278-377) -/

/-- Embeds one permission rule dict: `rule.get("tool", "")`,
`rule.get("mode", "")`, `rule.get("allowed", [])`, `rule.get("denied", [])`. -/
structure PermissionRule where
  tool : String := ""
  mode : String := ""
  allowed : List String := []
  denied : List String := []
deriving Repr, DecidableEq

/-- Embeds `PermissionChecker._match_tool`: an empty pattern matches nothing,
otherwise `fnmatch`. -/
def matchTool (pat tool_name : String) : Bool :=
  if pat = "" then false else fnmatchB tool_name pat

/-- Embeds `PermissionChecker._match_id_list`: true when any pattern in the
list `fnmatch`-matches the context id. -/
def matchIdList (id_list : List String) (context_id : String) : Bool :=
  id_list.any fun rule_id => fnmatchB context_id rule_id

/-- Embeds `PermissionChecker._build_context_ids` (plugin.py lines 352-366):
a user-level id, plus a group or private scene-level id.  Python truthiness
of the id strings becomes a non-emptiness test. -/
def buildContextIds (chat_id user_id : String) (is_group : Bool) : List String :=
  (if user_id ≠ "" then ["qq:" ++ user_id ++ ":user"] else []) ++
  (if is_group ∧ chat_id ≠ "" then ["qq:" ++ chat_id ++ ":group"]
   else if chat_id ≠ "" then ["qq:" ++ chat_id ++ ":private"] else [])

/-- The rule-scanning loop of `PermissionChecker.check` (plugin.py lines
313-341), factored over the already-built context-id list: `some b` when a
rule returns a decision, `none` when the loop falls through to the default
mode. -/
def checkRules (tool_name : String) (context_ids : List String) :
    List PermissionRule → Option Bool
  | [] => none
  | r :: rest =>
      if ¬matchTool r.tool tool_name then checkRules tool_name context_ids rest
      else if ¬r.denied.isEmpty ∧ context_ids.any (fun cid => matchIdList r.denied cid) then
        some false
      else if ¬r.allowed.isEmpty then
        if context_ids.any (fun cid => matchIdList r.allowed cid) then some true
        else if r.mode = "whitelist" then some false
        else checkRules tool_name context_ids rest
      else checkRules tool_name context_ids rest

/-- `PermissionChecker.check` with the caller's context-id list made
explicit: disabled always allows; otherwise the first decisive rule wins and
a full fall-through yields the default mode. -/
def checkWithIds (enabled : Bool) (default_mode : String)
    (rules : List PermissionRule) (tool_name : String)
    (context_ids : List String) : Bool :=
  if ¬enabled then true
  else
    match checkRules tool_name context_ids rules with
    | some b => b
    | none => default_mode = "allow_all"

/-- Embeds `PermissionChecker.check` (plugin.py lines 297-344). -/
def check (enabled : Bool) (default_mode : String) (rules : List PermissionRule)
    (tool_name chat_id user_id : String) (is_group : Bool) : Bool :=
  checkWithIds enabled default_mode rules tool_name
    (buildContextIds chat_id user_id is_group)

/-! ### Session call path (`MCPClientSession.call_tool`) -/

/-- `p.isPrefixOf s` on character lists, written out so the kernel reduces
it: Python's `str.startswith`. -/
def leadsWithChar : List Char → List Char → Bool
  | [], _ => true
  | _ :: _, [] => false
  | a :: as, b :: bs => decide (a = b) && leadsWithChar as bs

/-- Python's `s.startswith(p)`. -/
def strStarts (s p : String) : Bool := leadsWithChar p.toList s.toList

/-- Python's `sub in s` substring test. -/
def containsSub (s sub : String) : Bool :=
  (sufs s.toList).any fun t => leadsWithChar sub.toList t

/-- Embeds `MCPCallResult` (mcp_client.py lines 64-70). -/
structure MCPCallResult where
  success : Bool
  content : Option String
  error : Option String := none
  duration_ms : ℚ := 0
deriving Repr, DecidableEq

/-- The externally determined outcome of the awaited remote
`session.call_tool`: the content parts and elapsed duration on completion, a
timeout, or a raised exception with its message. -/
inductive CallOutcome where
  | ok (parts : List String) (duration_ms : ℚ)
  | timeout (duration_ms : ℚ)
  | fail (msg : String) (duration_ms : ℚ)
deriving Repr, DecidableEq

/-- The guarded statistics update `if tool_name in self._tool_stats:
self._tool_stats[tool_name].record_call(...)` shared by every branch of
`MCPClientSession.call_tool`. -/
def recordCallIfKnown (ts : List (String × ToolCallStats)) (name : String)
    (success : Bool) (dur : ℚ) (err : Option String) (now : ℚ) :
    List (String × ToolCallStats) :=
  match dictGet name ts with
  | some s => dictInsert name (s.record_call success dur err now) ts
  | none => ts

/-- The timeout error text `f"工具调用超时（{self.call_timeout}秒）"`.  (Only
the number formatting differs from CPython's float `repr`; no property here
inspects it.) -/
def timeoutMsg (call_timeout : ℚ) : String :=
  "工具调用超时（" ++ toString call_timeout ++ "秒）"

/-- Embeds `MCPClientSession.call_tool` (mcp_client.py lines 398-454): fail
fast when not connected; otherwise the remote call completes, times out, or
raises (`outcome`); each branch records statistics only for known tools; an
error message containing `connection`/`closed` (lowercased) additionally
marks the session disconnected. -/
def call_tool (st : SessionState) (tool_name : String) (outcome : CallOutcome)
    (now : ℚ) : MCPCallResult × SessionState :=
  if ¬st.connected then
    let msg := "服务器 " ++ st.server_name ++ " 未连接"
    ({ success := false, content := none, error := some msg },
     { st with tool_stats := recordCallIfKnown st.tool_stats tool_name false 0 (some msg) now })
  else
    match outcome with
    | .ok parts dur =>
        let content :=
          if parts.isEmpty then "执行成功（无返回内容）"
          else String.intercalate "\n" parts
        ({ success := true, content := some content, duration_ms := dur },
         { st with tool_stats := recordCallIfKnown st.tool_stats tool_name true dur none now })
    | .timeout dur =>
        let msg := timeoutMsg st.call_timeout
        ({ success := false, content := none, error := some msg, duration_ms := dur },
         { st with tool_stats := recordCallIfKnown st.tool_stats tool_name false dur (some msg) now })
    | .fail msg dur =>
        let st₁ :=
          { st with tool_stats := recordCallIfKnown st.tool_stats tool_name false dur (some msg) now }
        let st₂ :=
          if containsSub msg.toLower "connection" || containsSub msg.toLower "closed" then
            { st₁ with connected := false, stats := st₁.stats.record_disconnect now }
          else st₁
        ({ success := false, content := none, error := some msg, duration_ms := dur }, st₂)

/-! ### Registry and manager (`MCPClientManager`) -/

/-- One registry value: the original tool descriptor's name and the owning
server (the source stores `(MCPToolInfo, session-object)`; the session
back-reference is the server name here). -/
structure RegEntry where
  tool_name : String
  server_name : String
deriving Repr, DecidableEq

/-- The composite key computed by `_register_tools` (mcp_client.py lines
610-614): `f"{tool_prefix}_{server}_{name}"` unless the local name already
carries that prefix, in which case the local name is used verbatim. -/
def compositeKey (toolPre server name : String) : String :=
  if strStarts name (toolPre ++ "_" ++ server ++ "_") then name
  else toolPre ++ "_" ++ server ++ "_" ++ name

/-- Embeds `MCPClientManager._register_tools` (mcp_client.py lines 606-616):
insert one entry per discovered tool under its composite key. -/
def registerTools (toolPre server : String) (tools : List String)
    (reg : List (String × RegEntry)) : List (String × RegEntry) :=
  tools.foldl (fun r t => dictInsert (compositeKey toolPre server t) ⟨t, server⟩ r) reg

/-- Embeds `MCPClientManager._unregister_tools` (mcp_client.py lines
618-627): delete every entry whose key begins with
`f"{tool_prefix}_{server_name}_"`; returns the surviving registry and the
removed keys. -/
def unregisterTools (toolPre server : String) (reg : List (String × RegEntry)) :
    List (String × RegEntry) × List String :=
  let p := toolPre ++ "_" ++ server ++ "_"
  (reg.filter fun e => !strStarts e.1 p,
   (reg.filter fun e => strStarts e.1 p).map Prod.fst)

/-- The manager-level state: sessions by server name, the tool registry, the
`tool_prefix` setting, and the `_global_stats` counters. -/
structure ManagerState where
  clients : List (String × SessionState) := []
  all_tools : List (String × RegEntry) := []
  toolPre : String := "mcp"
  total_tool_calls : Nat := 0
  successful_calls : Nat := 0
  failed_calls : Nat := 0
deriving Repr, DecidableEq

/-- Embeds `MCPClientManager.call_tool` (mcp_client.py lines 673-694): an
absent key returns a tool-not-found failure before any statistics are
touched; otherwise the global total counter, the owning session's call, and
the success/failure counter follow in order.  (`_arguments` is forwarded to
the remote call, whose behaviour is the `outcome` oracle.) -/
def managerCallTool (m : ManagerState) (tool_key : String)
    (_arguments : List (String × JsonVal)) (outcome : CallOutcome) (now : ℚ) :
    MCPCallResult × ManagerState :=
  match dictGet tool_key m.all_tools with
  | none =>
      ({ success := false, content := none,
         error := some ("工具 " ++ tool_key ++ " 不存在") }, m)
  | some entry =>
      let m₁ := { m with total_tool_calls := m.total_tool_calls + 1 }
      let (result, m₂) :=
        match dictGet entry.server_name m₁.clients with
        | some sess =>
            let (res, sess') := call_tool sess entry.tool_name outcome now
            (res, { m₁ with clients := dictInsert entry.server_name sess' m₁.clients })
        | none =>
            -- The source stores the owning session object in the registry
            -- tuple, so a dangling back-reference cannot occur; the model
            -- treats one as a call on a fresh disconnected session.
            ((call_tool (initSession entry.server_name) entry.tool_name outcome now).1, m₁)
      if result.success then
        (result, { m₂ with successful_calls := m₂.successful_calls + 1 })
      else
        (result, { m₂ with failed_calls := m₂.failed_calls + 1 })

/-! ### Reconnection and the heartbeat loop -/

/-- The retry loop of `add_server`/`reconnect_server`: one `connect` per
attempt (`outcomes` carries the transport oracle for each of the
`retry_attempts` iterations), stopping at the first success. -/
def connectLoop (st : SessionState) (outcomes : List ConnectOutcome) (now : ℚ) :
    Bool × SessionState :=
  match outcomes with
  | [] => (false, st)
  | o :: rest =>
      let (ok, st') := connect st o now
      if ok then (true, st') else connectLoop st' rest now

/-- Embeds `MCPClientManager.reconnect_server` (mcp_client.py lines 643-671)
for one server: unregister its tools, disconnect, rerun the connect retry
loop; on success re-register the fetched tools and record a reconnect. -/
def reconnectServer (toolPre : String) (st : SessionState)
    (reg : List (String × RegEntry)) (outcomes : List ConnectOutcome) (now : ℚ) :
    Bool × SessionState × List (String × RegEntry) :=
  let reg₁ := (unregisterTools toolPre st.server_name reg).1
  let st₁ := disconnect st now
  let (ok, st₂) := connectLoop st₁ outcomes now
  if ok then
    (true, { st₂ with stats := st₂.stats.record_reconnect },
     registerTools toolPre st₂.server_name st₂.tools reg₁)
  else (false, st₂, reg₁)

/-- Result of `_try_reconnect`: outcome, successor session and registry, and
how many `reconnect_server` invocations (reconnection attempts) were issued. -/
structure ReconnectResult where
  ok : Bool
  sess : SessionState
  reg : List (String × RegEntry)
  attempts : Nat
deriving Repr, DecidableEq

/-- Embeds `MCPClientManager._try_reconnect` (mcp_client.py lines 767-784):
skip entirely once `consecutive_failures` has reached `max_attempts`;
otherwise invoke `reconnect_server` once, recording a failure when it does
not succeed. -/
def tryReconnect (toolPre : String) (maxAttempts : Nat) (st : SessionState)
    (reg : List (String × RegEntry)) (outcomes : List ConnectOutcome) (now : ℚ) :
    ReconnectResult :=
  if maxAttempts ≤ st.stats.consecutive_failures then ⟨false, st, reg, 0⟩
  else
    let (ok, st', reg') := reconnectServer toolPre st reg outcomes now
    if ok then ⟨true, st', reg', 1⟩
    else ⟨false, { st' with stats := st'.stats.record_failure }, reg', 1⟩

/-- The oracle inputs of one heartbeat iteration for one server: the health
probe's outcome, the transport outcomes available to a reconnect's retry
loop, and the current time. -/
structure TickInput where
  healthy : Bool
  outcomes : List ConnectOutcome
  now : ℚ

/-- One iteration of the `_heartbeat_loop` body (mcp_client.py lines
741-759) for one server: skip disabled sessions; health-check connected ones
and reconnect on failure (when auto-reconnect is on); reconnect disconnected
ones only while under the consecutive-failure cap. -/
def heartbeatTickServer (auto_reconnect : Bool) (maxAttempts : Nat)
    (toolPre : String) (st : SessionState) (reg : List (String × RegEntry))
    (inp : TickInput) : SessionState × List (String × RegEntry) × Nat :=
  if ¬st.enabled then (st, reg, 0)
  else if st.connected then
    let (ok, st₁) := check_health st inp.healthy inp.now
    if ok then (st₁, reg, 0)
    else if auto_reconnect then
      let r := tryReconnect toolPre maxAttempts st₁ reg inp.outcomes inp.now
      (r.sess, r.reg, r.attempts)
    else (st₁, reg, 0)
  else
    if auto_reconnect ∧ st.stats.consecutive_failures < maxAttempts then
      let r := tryReconnect toolPre maxAttempts st reg inp.outcomes inp.now
      (r.sess, r.reg, r.attempts)
    else (st, reg, 0)

/-- A run of successive heartbeat iterations for one server, accumulating the
number of reconnection attempts initiated. -/
def heartbeatRun (auto_reconnect : Bool) (maxAttempts : Nat) (toolPre : String)
    (st : SessionState) (reg : List (String × RegEntry)) :
    List TickInput → SessionState × List (String × RegEntry) × Nat
  | [] => (st, reg, 0)
  | i :: is =>
      let (st', reg', n) := heartbeatTickServer auto_reconnect maxAttempts toolPre st reg i
      let (st'', reg'', k) := heartbeatRun auto_reconnect maxAttempts toolPre st' reg' is
      (st'', reg'', n + k)

/-- Concrete instance used to exercise the theorems: a connected session for
server "s" with an empty statistics map. -/
def connSession : SessionState :=
  { server_name := "s", connected := true, stats := { server_name := "s" } }

/-- Concrete instance used to exercise the theorems: a connected session for
server "s" whose statistics map knows tool "t". -/
def connSessionT : SessionState :=
  { connSession with tool_stats := [("t", initStats "t")] }

/-- Concrete instance used to exercise the theorems: a disconnected session
whose consecutive-failure counter already reached 3. -/
def cappedSession : SessionState :=
  { server_name := "s", stats := { server_name := "s", consecutive_failures := 3 } }

/-- Concrete instance used to exercise the theorems: an enabled one-slot
cache already holding one unexpired entry. -/
def cacheFix : CacheState :=
  { enabled := true, max_entries := 1, ttl := 10,
    entries := [("k0", mkCacheEntry "t0" "k0" "r0" 0 5)] }

/-! ## Helper lemmas -/

theorem dictGet_dictInsert {α : Type} (k : String) (v : α) (d : List (String × α)) :
    dictGet k (dictInsert k v d) = some v := by
  induction d with
  | nil => simp [dictInsert, dictGet]
  | cons p rest ih =>
      by_cases h : p.1 = k
      · simp [dictInsert, dictGet, h]
      · simp [dictInsert, dictGet, h, ih]

theorem dictGet_append_of_none {α : Type} {k : String} {d : List (String × α)}
    (h : dictGet k d = none) (d' : List (String × α)) :
    dictGet k (d ++ d') = dictGet k d' := by
  induction d with
  | nil => simp
  | cons p rest ih =>
      by_cases hp : p.1 = k
      · simp [dictGet, hp] at h
      · simp [dictGet, hp] at h ⊢
        exact ih h

theorem dictGet_dictDelete {α : Type} (k : String) (d : List (String × α)) :
    dictGet k (dictDelete k d) = none := by
  induction d with
  | nil => simp [dictDelete, dictGet]
  | cons p rest ih =>
      by_cases hp : p.1 = k
      · simpa [dictDelete, hp] using ih
      · simpa [dictDelete, dictGet, hp] using ih

theorem dictGet_filter_of_none {α : Type} {k : String} {d : List (String × α)}
    (p : String × α → Bool) (h : dictGet k d = none) :
    dictGet k (d.filter p) = none := by
  induction d with
  | nil => exact h
  | cons e rest ih =>
      by_cases he : e.1 = k
      · simp [dictGet, he] at h
      · simp only [dictGet, he, if_neg, ite_false] at h
        rw [List.filter_cons]
        by_cases hp : p e = true
        · simp only [hp, ite_true, dictGet, he, ite_false]
          exact ih h
        · simp only [hp, ite_false]
          exact ih h

theorem dictGet_evictLRU_of_none {k : String} {d : List (String × CacheEntry)}
    (m : Nat) (h : dictGet k d = none) :
    dictGet k (evictLRU m d) = none := by
  induction d with
  | nil => simpa [evictLRU] using h
  | cons e rest ih =>
      have he : ¬e.1 = k := by
        intro hk
        simp [dictGet, hk] at h
      have h' : dictGet k rest = none := by simpa [dictGet, he] using h
      by_cases hm : m ≤ (e :: rest).length
      · simp only [evictLRU, if_pos hm]
        exact ih h'
      · simp only [evictLRU, if_neg hm]
        exact h

theorem leadsWithChar_append (xs ys : List Char) :
    leadsWithChar xs (xs ++ ys) = true := by
  induction xs with
  | nil => rfl
  | cons a as ih => simp [leadsWithChar, ih]

theorem strStarts_append (p x : String) : strStarts (p ++ x) p = true := by
  unfold strStarts
  have h : (p ++ x).toList = p.toList ++ x.toList := by
    simp [String.toList]
  rw [h]
  exact leadsWithChar_append _ _

theorem compositeKey_starts (toolPre server name : String) :
    strStarts (compositeKey toolPre server name)
      (toolPre ++ "_" ++ server ++ "_") = true := by
  unfold compositeKey
  by_cases h : strStarts name (toolPre ++ "_" ++ server ++ "_") = true
  · simpa [h] using h
  · simp only [h, ite_false, if_neg, Bool.not_eq_true]
    exact strStarts_append _ _

theorem unregister_dictInsert (toolPre server k : String) (v : RegEntry)
    (reg : List (String × RegEntry))
    (hk : strStarts k (toolPre ++ "_" ++ server ++ "_") = true) :
    (unregisterTools toolPre server (dictInsert k v reg)).1 =
      (unregisterTools toolPre server reg).1 := by
  induction reg with
  | nil => simp [unregisterTools, dictInsert, hk]
  | cons e rest ih =>
      by_cases he : e.1 = k
      · simp [unregisterTools, dictInsert, he, hk] at ih ⊢
      · simp only [unregisterTools, dictInsert, he, ite_false, if_neg,
          List.filter_cons] at ih ⊢
        by_cases hs : strStarts e.1 (toolPre ++ "_" ++ server ++ "_") = true
        · simp [hs, ih]
        · simp only [Bool.not_eq_true] at hs
          simp [hs, ih]

theorem unregister_register (toolPre server : String) (tools : List String)
    (reg : List (String × RegEntry)) :
    (unregisterTools toolPre server (registerTools toolPre server tools reg)).1 =
      (unregisterTools toolPre server reg).1 := by
  induction tools generalizing reg with
  | nil => rfl
  | cons t ts ih =>
      show (unregisterTools toolPre server (registerTools toolPre server ts
        (dictInsert (compositeKey toolPre server t) ⟨t, server⟩ reg))).1 = _
      rw [ih, unregister_dictInsert _ _ _ _ _ (compositeKey_starts _ _ _)]

theorem unregister_removed_iff (toolPre server : String)
    (reg₂ : List (String × RegEntry)) (k : String) :
    k ∈ (unregisterTools toolPre server reg₂).2 ↔
      (k ∈ dictKeys reg₂ ∧ strStarts k (toolPre ++ "_" ++ server ++ "_") = true) := by
  unfold unregisterTools dictKeys
  simp only [List.mem_map, List.mem_filter]
  constructor
  · rintro ⟨e, ⟨he, hs⟩, rfl⟩
    exact ⟨⟨e, he, rfl⟩, hs⟩
  · rintro ⟨⟨e, he, rfl⟩, hs⟩
    exact ⟨e, ⟨he, hs⟩, rfl⟩

/-! ## C1: success rate is derived, never stored -/

/-- C1: for every `ToolCallStats` value, `success_rate` equals
`success_calls / total_calls * 100` when `total_calls > 0` and `0.0` when
`total_calls = 0`; it is a function of the stored counters alone (the
dataclass stores no success-rate field for any operation to mutate), so any
two states with the same counters read the same rate. -/
theorem C1_success_rate_derived :
    (∀ s : ToolCallStats,
        s.success_rate =
          if s.total_calls = 0 then 0
          else ((s.success_calls : ℚ) / (s.total_calls : ℚ)) * 100) ∧
    (∀ s t : ToolCallStats, s.total_calls = t.total_calls →
        s.success_calls = t.success_calls → s.success_rate = t.success_rate) := by
  refine ⟨fun s => rfl, fun s t h1 h2 => ?_⟩
  unfold ToolCallStats.success_rate
  rw [h1, h2]

/-- Witness for C1 at concrete inputs: two states agreeing on the counters
but not on the other fields read the same success rate. -/
theorem C1_success_rate_derived_witness :
    ({ tool_key := "a", total_calls := 4, success_calls := 3 } : ToolCallStats).success_rate =
      ({ tool_key := "b", total_calls := 4, success_calls := 3, failed_calls := 1,
         last_error := some "e" } : ToolCallStats).success_rate :=
  C1_success_rate_derived.2 _ _ rfl rfl

/-! ## C10: counter invariants under arbitrary call sequences -/

theorem applyCalls_counters (evs : List CallEvent) : ∀ s : ToolCallStats,
    (applyCalls s evs).total_calls = s.total_calls + evs.length ∧
    (applyCalls s evs).success_calls = s.success_calls + evs.countP (·.success) ∧
    (applyCalls s evs).failed_calls = s.failed_calls + evs.countP (fun e => !e.success) ∧
    (applyCalls s evs).total_duration_ms =
      s.total_duration_ms + ((evs.filter (·.success)).map (·.duration_ms)).sum := by
  induction evs with
  | nil => intro s; simp [applyCalls]
  | cons e es ih =>
      intro s
      obtain ⟨h1, h2, h3, h4⟩ := ih (s.record_call e.success e.duration_ms e.error e.now)
      have r1 : (s.record_call e.success e.duration_ms e.error e.now).total_calls =
          s.total_calls + 1 := by
        unfold ToolCallStats.record_call
        by_cases hb : e.success = true <;> simp [hb]
      have r2 : (s.record_call e.success e.duration_ms e.error e.now).success_calls =
          s.success_calls + (if e.success = true then 1 else 0) := by
        unfold ToolCallStats.record_call
        by_cases hb : e.success = true <;> simp [hb]
      have r3 : (s.record_call e.success e.duration_ms e.error e.now).failed_calls =
          s.failed_calls + (if e.success = true then 0 else 1) := by
        unfold ToolCallStats.record_call
        by_cases hb : e.success = true <;> simp [hb]
      have r4 : (s.record_call e.success e.duration_ms e.error e.now).total_duration_ms =
          s.total_duration_ms + (if e.success = true then e.duration_ms else 0) := by
        unfold ToolCallStats.record_call
        by_cases hb : e.success = true <;> simp [hb]
      refine ⟨?_, ?_, ?_, ?_⟩
      · show (applyCalls (s.record_call e.success e.duration_ms e.error e.now) es).total_calls = _
        rw [h1, r1, List.length_cons]
        omega
      · show (applyCalls (s.record_call e.success e.duration_ms e.error e.now) es).success_calls = _
        rw [h2, r2, List.countP_cons]
        by_cases hb : e.success = true <;> simp [hb] <;> omega
      · show (applyCalls (s.record_call e.success e.duration_ms e.error e.now) es).failed_calls = _
        rw [h3, r3, List.countP_cons]
        by_cases hb : e.success = true <;> simp [hb] <;> omega
      · show (applyCalls
            (s.record_call e.success e.duration_ms e.error e.now) es).total_duration_ms = _
        rw [h4, r4, List.filter_cons]
        by_cases hb : e.success = true <;> simp [hb] <;> ring

/-- C10: after any sequence of `record_call` invocations starting from the
initial state, `total_calls = success_calls + failed_calls`,
`total_duration_ms` is the sum of the durations of the successful calls
only, `success_rate` lies in `[0, 100]`, and `avg_duration_ms` divides the
cumulative duration by `success_calls` (0 when there was no success). -/
theorem C10_stats_invariants (key : String) (evs : List CallEvent) :
    (applyCalls (initStats key) evs).total_calls =
        (applyCalls (initStats key) evs).success_calls +
          (applyCalls (initStats key) evs).failed_calls ∧
    (applyCalls (initStats key) evs).total_duration_ms =
        ((evs.filter (·.success)).map (·.duration_ms)).sum ∧
    0 ≤ (applyCalls (initStats key) evs).success_rate ∧
    (applyCalls (initStats key) evs).success_rate ≤ 100 ∧
    (applyCalls (initStats key) evs).avg_duration_ms =
      (if (applyCalls (initStats key) evs).success_calls = 0 then 0
       else (applyCalls (initStats key) evs).total_duration_ms /
            ((applyCalls (initStats key) evs).success_calls : ℚ)) := by
  obtain ⟨h1, h2, h3, h4⟩ := applyCalls_counters evs (initStats key)
  simp only [show (initStats key).total_calls = 0 from rfl,
    show (initStats key).success_calls = 0 from rfl,
    show (initStats key).failed_calls = 0 from rfl,
    show (initStats key).total_duration_ms = 0 from rfl,
    Nat.zero_add, zero_add] at h1 h2 h3 h4
  have htot : (applyCalls (initStats key) evs).total_calls =
      (applyCalls (initStats key) evs).success_calls +
        (applyCalls (initStats key) evs).failed_calls := by
    rw [h1, h2, h3]
    have := List.length_eq_countP_add_countP (p := (·.success : CallEvent → Bool)) evs
    simpa using this
  refine ⟨htot, by simpa using h4, ?_, ?_, rfl⟩
  · unfold ToolCallStats.success_rate
    by_cases hz : (applyCalls (initStats key) evs).total_calls = 0
    · simp [hz]
    · simp only [hz, ite_false]
      positivity
  · unfold ToolCallStats.success_rate
    by_cases hz : (applyCalls (initStats key) evs).total_calls = 0
    · simp [hz]
    · simp only [hz, ite_false]
      have hle : (applyCalls (initStats key) evs).success_calls ≤
          (applyCalls (initStats key) evs).total_calls := by omega
      have hpos : (0 : ℚ) < ((applyCalls (initStats key) evs).total_calls : ℚ) := by
        exact_mod_cast Nat.pos_of_ne_zero hz
      have hdiv : ((applyCalls (initStats key) evs).success_calls : ℚ) /
          ((applyCalls (initStats key) evs).total_calls : ℚ) ≤ 1 := by
        rw [div_le_one hpos]
        exact_mod_cast hle
      nlinarith

/-! ## C6: unknown composite key is a pure failure -/

/-- C6: `Manager.call_tool` on a composite key absent from the registry
returns `success = false` with the tool-not-found error text and leaves the
entire manager state — global counters, every server's stats, every tool's
stats — unchanged. -/
theorem C6_unknown_key_no_mutation (m : ManagerState) (key : String)
    (args : List (String × JsonVal)) (outcome : CallOutcome) (now : ℚ)
    (h : dictGet key m.all_tools = none) :
    managerCallTool m key args outcome now =
      ({ success := false, content := none,
         error := some ("工具 " ++ key ++ " 不存在") }, m) := by
  unfold managerCallTool
  rw [h]

/-- Witness for C6 at a concrete input: an empty manager and the key "k". -/
theorem C6_unknown_key_no_mutation_witness :
    managerCallTool {} "k" [] (.ok [] 1) 0 =
      ({ success := false, content := none,
         error := some ("工具 " ++ "k" ++ " 不存在") }, {}) :=
  C6_unknown_key_no_mutation {} "k" [] (.ok [] 1) 0 rfl

/-! ## C8: what moves `consecutive_failures` -/

/-- C8 counterexample: the claim says a failed health-check increments
`consecutive_failures` by 1, but `check_health`'s failure path calls
`record_disconnect`, which leaves the counter untouched: on a connected
session with counter 0 a failed probe yields counter 0 (and disconnect
count 1), not 1. -/
theorem C8_health_check_counterexample :
    (check_health connSession false 0).1 = false ∧
    (check_health connSession false 0).2.stats.consecutive_failures = 0 ∧
    (check_health connSession false 0).2.stats.disconnect_count = 1 := by
  refine ⟨rfl, rfl, rfl⟩

/-- C8 amended: `consecutive_failures` is reset to 0 by every connect that
newly establishes a connection and by every successful reconnect, and is
incremented by 1 on each failed connect attempt; a failed health-check does
not change it (it records a disconnect instead). -/
theorem C8_amended :
    (∀ (st : SessionState) (fetched : List String) (now : ℚ), st.connected = false →
        (connect st (some fetched) now).1 = true ∧
        (connect st (some fetched) now).2.stats.consecutive_failures = 0) ∧
    (∀ (st : SessionState) (now : ℚ), st.connected = false →
        (connect st none now).1 = false ∧
        (connect st none now).2.stats.consecutive_failures =
          st.stats.consecutive_failures + 1) ∧
    (∀ (toolPre : String) (st : SessionState) (reg : List (String × RegEntry))
        (outcomes : List ConnectOutcome) (now : ℚ),
        (reconnectServer toolPre st reg outcomes now).1 = true →
        (reconnectServer toolPre st reg outcomes now).2.1.stats.consecutive_failures = 0) ∧
    (∀ (st : SessionState) (now : ℚ), st.connected = true →
        (check_health st false now).1 = false ∧
        (check_health st false now).2.stats.consecutive_failures =
          st.stats.consecutive_failures ∧
        (check_health st false now).2.stats.disconnect_count =
          st.stats.disconnect_count + 1) := by
  refine ⟨?_, ?_, ?_, ?_⟩
  · intro st fetched now h
    constructor <;> simp [connect, h, fetchTools, ServerStats.record_connect]
  · intro st now h
    constructor <;> simp [connect, h, ServerStats.record_failure]
  · intro toolPre st reg outcomes now h
    rcases hcl : connectLoop (disconnect st now) outcomes now with ⟨ok, st₂⟩
    simp only [reconnectServer, hcl] at h ⊢
    cases ok
    · simp at h
    · simp [ServerStats.record_reconnect]
  · intro st now h
    refine ⟨?_, ?_, ?_⟩ <;> simp [check_health, h, ServerStats.record_disconnect]

/-- Witness for C8 amended, at concrete inputs for each conjunct. -/
theorem C8_amended_witness :
    (connect (initSession "s") (some ["t"]) 0).1 = true ∧
    (connect (initSession "s") (some ["t"]) 0).2.stats.consecutive_failures = 0 ∧
    (connect (initSession "s") none 0).2.stats.consecutive_failures =
      (initSession "s").stats.consecutive_failures + 1 ∧
    (reconnectServer "mcp" (initSession "s") [] [some ["t"]] 0).2.1.stats.consecutive_failures
      = 0 ∧
    (check_health connSession false 0).2.stats.consecutive_failures =
      connSession.stats.consecutive_failures :=
  ⟨(C8_amended.1 (initSession "s") ["t"] 0 rfl).1,
   (C8_amended.1 (initSession "s") ["t"] 0 rfl).2,
   (C8_amended.2.1 (initSession "s") 0 rfl).2,
   C8_amended.2.2.1 "mcp" (initSession "s") [] [some ["t"]] 0 rfl,
   (C8_amended.2.2.2 connSession 0 rfl).2.1⟩

/-! ## C7: per-tool statistics recording in `Session.call_tool` -/

/-- C7 counterexample: the recording is guarded by
`if tool_name in self._tool_stats`, so calling a tool with no statistics
entry records nothing at all: on a connected session whose stats map is
empty, a successful call leaves the map empty — zero `record_call`s, not
exactly one. -/
theorem C7_unknown_tool_counterexample :
    (call_tool connSession "t" (.ok ["r"] 5) 0).2.tool_stats = [] ∧
    dictGet "t" (call_tool connSession "t" (.ok ["r"] 5) 0).2.tool_stats = none := by
  refine ⟨rfl, rfl⟩

theorem record_call_proj (s : ToolCallStats) (b : Bool) (dur : ℚ)
    (err : Option String) (now : ℚ) :
    (s.record_call b dur err now).total_calls = s.total_calls + 1 ∧
    (s.record_call b dur err now).success_calls = s.success_calls + (if b then 1 else 0) ∧
    (s.record_call b dur err now).failed_calls = s.failed_calls + (if b then 0 else 1) ∧
    (s.record_call b dur err now).total_duration_ms =
      s.total_duration_ms + (if b then dur else 0) ∧
    (s.record_call b dur err now).last_error = (if b then s.last_error else err) := by
  unfold ToolCallStats.record_call
  cases b <;> simp

theorem recordCallIfKnown_known {ts : List (String × ToolCallStats)} {name : String}
    {old : ToolCallStats} (h : dictGet name ts = some old) (flag : Bool) (dur : ℚ)
    (err : Option String) (now : ℚ) :
    dictGet name (recordCallIfKnown ts name flag dur err now) =
      some (old.record_call flag dur err now) := by
  unfold recordCallIfKnown
  rw [h]
  exact dictGet_dictInsert name _ ts

/-- C7 amended: for every invocation of `Session.call_tool(name, args)` with
`name` present in the session's per-tool statistics map — which holds for
every tool the session ever fetched — the statistics for `name` are updated
by exactly one `record_call`, a success with its duration or a failure with
its error message, in every branch (fail-fast, success, timeout, error). -/
theorem C7_amended (st : SessionState) (name : String) (old : ToolCallStats)
    (outcome : CallOutcome) (now : ℚ)
    (h : dictGet name st.tool_stats = some old) :
    ((dictGet name (call_tool st name outcome now).2.tool_stats).map
        ToolCallStats.total_calls = some (old.total_calls + 1)) ∧
    ((call_tool st name outcome now).1.success = true →
      (dictGet name (call_tool st name outcome now).2.tool_stats).map
          ToolCallStats.success_calls = some (old.success_calls + 1) ∧
      (dictGet name (call_tool st name outcome now).2.tool_stats).map
          ToolCallStats.total_duration_ms =
        some (old.total_duration_ms + (call_tool st name outcome now).1.duration_ms)) ∧
    ((call_tool st name outcome now).1.success = false →
      (dictGet name (call_tool st name outcome now).2.tool_stats).map
          ToolCallStats.failed_calls = some (old.failed_calls + 1) ∧
      (dictGet name (call_tool st name outcome now).2.tool_stats).map
          ToolCallStats.last_error = some (call_tool st name outcome now).1.error) := by
  by_cases hc : st.connected = true
  · cases outcome with
    | ok parts dur =>
        have hrec := recordCallIfKnown_known h true dur none now
        obtain ⟨p1, p2, p3, p4, p5⟩ := record_call_proj old true dur none now
        simp [call_tool, hc, hrec, p1, p2, p4]
    | timeout dur =>
        have hrec := recordCallIfKnown_known h false dur
          (some (timeoutMsg st.call_timeout)) now
        obtain ⟨p1, p2, p3, p4, p5⟩ :=
          record_call_proj old false dur (some (timeoutMsg st.call_timeout)) now
        simp [call_tool, hc, hrec, p1, p3, p5]
    | fail msg dur =>
        have hrec := recordCallIfKnown_known h false dur (some msg) now
        obtain ⟨p1, p2, p3, p4, p5⟩ := record_call_proj old false dur (some msg) now
        by_cases hcon :
            (containsSub msg.toLower "connection" || containsSub msg.toLower "closed") = true
        · simp [call_tool, hc, hcon, hrec, p1, p3, p5]
        · simp [call_tool, hc, hcon, hrec, p1, p3, p5]
  · have hrec := recordCallIfKnown_known h false 0
      (some ("服务器 " ++ st.server_name ++ " 未连接")) now
    obtain ⟨p1, p2, p3, p4, p5⟩ :=
      record_call_proj old false 0 (some ("服务器 " ++ st.server_name ++ " 未连接")) now
    simp [call_tool, hc, hrec, p1, p3, p5]

/-- Witness for C7 amended: a timeout call on a session that knows tool
"t". -/
theorem C7_amended_witness :
    (dictGet "t" (call_tool connSessionT "t" (.timeout 3) 0).2.tool_stats).map
      ToolCallStats.total_calls = some ((initStats "t").total_calls + 1) :=
  (C7_amended connSessionT "t" (initStats "t") (.timeout 3) 0 rfl).1

/-! ## C2: register/unregister round trip -/

/-- C2 counterexample: with prefix "mcp", the prior registry holding server
"s_x"'s tool under key "mcp_s_x_y" is destroyed by registering and then
unregistering server "s": the unregister prefix "mcp_s_" also matches
"mcp_s_x_y", so the round trip empties the registry instead of restoring the
one-entry prior key set, and the removed entry belongs to a different
server. -/
theorem C2_roundtrip_counterexample :
    dictKeys (unregisterTools "mcp" "s" (registerTools "mcp" "s" ["foo"]
      [("mcp_s_x_y", ⟨"y", "s_x"⟩)])).1 = [] ∧
    dictKeys [("mcp_s_x_y", (⟨"y", "s_x"⟩ : RegEntry))] = ["mcp_s_x_y"] ∧
    "mcp_s_x_y" ∈ (unregisterTools "mcp" "s" (registerTools "mcp" "s" ["foo"]
      [("mcp_s_x_y", ⟨"y", "s_x"⟩)])).2 ∧
    (⟨"y", "s_x"⟩ : RegEntry).server_name ≠ "s" := by decide

/-- C2 amended: provided no pre-existing entry's key begins with server `s`'s
composite prefix (in particular no other server's keys collide with it),
registering `s`'s tools and then unregistering `s` restores the registry
exactly; unregistering always removes exactly the entries whose key begins
with the composite prefix — which may include another server's entries when
prefixes nest, as the counterexample shows. -/
theorem C2_amended (toolPre server : String) (tools : List String)
    (reg : List (String × RegEntry))
    (h : ∀ e ∈ reg, strStarts e.1 (toolPre ++ "_" ++ server ++ "_") = false) :
    (unregisterTools toolPre server (registerTools toolPre server tools reg)).1 = reg ∧
    (∀ k, k ∈ (unregisterTools toolPre server
        (registerTools toolPre server tools reg)).2 ↔
      (k ∈ dictKeys (registerTools toolPre server tools reg) ∧
       strStarts k (toolPre ++ "_" ++ server ++ "_") = true)) ∧
    (∀ e ∈ (unregisterTools toolPre server
        (registerTools toolPre server tools reg)).1,
      strStarts e.1 (toolPre ++ "_" ++ server ++ "_") = false) := by
  have hkeep : (unregisterTools toolPre server reg).1 = reg := by
    unfold unregisterTools
    refine List.filter_eq_self.mpr ?_
    intro e he
    simp [h e he]
  refine ⟨?_, ?_, ?_⟩
  · rw [unregister_register, hkeep]
  · intro k
    exact unregister_removed_iff toolPre server _ k
  · intro e he
    rw [unregister_register, hkeep] at he
    exact h e he

/-- Witness for C2 amended: prefix "mcp", server "s", one tool "foo", and a
prior registry holding an unrelated key. -/
theorem C2_amended_witness :
    (unregisterTools "mcp" "s" (registerTools "mcp" "s" ["foo"]
      [("other_k", ⟨"k", "other"⟩)])).1 = [("other_k", ⟨"k", "other"⟩)] ∧
    ("mcp_s_foo" ∈ (unregisterTools "mcp" "s" (registerTools "mcp" "s" ["foo"]
      [("other_k", ⟨"k", "other"⟩)])).2 ↔
      ("mcp_s_foo" ∈ dictKeys (registerTools "mcp" "s" ["foo"]
        [("other_k", ⟨"k", "other"⟩)]) ∧
       strStarts "mcp_s_foo" ("mcp" ++ "_" ++ "s" ++ "_") = true)) :=
  ⟨(C2_amended "mcp" "s" ["foo"] [("other_k", ⟨"k", "other"⟩)] (by decide)).1,
   (C2_amended "mcp" "s" ["foo"] [("other_k", ⟨"k", "other"⟩)] (by decide)).2.1 "mcp_s_foo"⟩

/-! ## C5: the heartbeat honours the consecutive-failure cap -/

theorem heartbeatTick_capped (auto : Bool) (maxA : Nat) (toolPre : String)
    (st : SessionState) (reg : List (String × RegEntry)) (inp : TickInput)
    (h : maxA ≤ st.stats.consecutive_failures) :
    (heartbeatTickServer auto maxA toolPre st reg inp).2.2 = 0 ∧
    (heartbeatTickServer auto maxA toolPre st reg inp).1.stats.consecutive_failures =
      st.stats.consecutive_failures := by
  by_cases he : st.enabled = true
  · by_cases hc : st.connected = true
    · by_cases hh : inp.healthy = true
      · constructor <;>
          simp [heartbeatTickServer, he, hc, hh, check_health,
            ServerStats.record_heartbeat]
      · by_cases ha : auto = true <;>
          constructor <;>
            simp [heartbeatTickServer, he, hc, hh, ha, check_health, tryReconnect,
              ServerStats.record_disconnect, h]
    · have hlt : ¬st.stats.consecutive_failures < maxA := by omega
      constructor <;> simp [heartbeatTickServer, he, hc, hlt]
  · constructor <;> simp [heartbeatTickServer, he]

theorem heartbeatRun_capped (auto : Bool) (maxA : Nat) (toolPre : String) :
    ∀ (ticks : List TickInput) (st : SessionState) (reg : List (String × RegEntry)),
    maxA ≤ st.stats.consecutive_failures →
    (heartbeatRun auto maxA toolPre st reg ticks).2.2 = 0 := by
  intro ticks
  induction ticks with
  | nil => intro st reg _; rfl
  | cons i is ih =>
      intro st reg h
      obtain ⟨h0, hcf⟩ := heartbeatTick_capped auto maxA toolPre st reg i h
      rcases htick : heartbeatTickServer auto maxA toolPre st reg i with ⟨st', reg', n⟩
      rw [htick] at h0 hcf
      simp only at h0 hcf
      have h' : maxA ≤ st'.stats.consecutive_failures := by rw [hcf]; exact h
      simp only [heartbeatRun, htick]
      rw [ih st' reg' h', h0]

theorem reconnectServer_ok_resets (toolPre : String) (st : SessionState)
    (reg : List (String × RegEntry)) (outcomes : List ConnectOutcome) (now : ℚ)
    (h : (reconnectServer toolPre st reg outcomes now).1 = true) :
    (reconnectServer toolPre st reg outcomes now).2.1.stats.consecutive_failures = 0 := by
  rcases hcl : connectLoop (disconnect st now) outcomes now with ⟨ok, st₂⟩
  simp only [reconnectServer, hcl] at h ⊢
  cases ok
  · simp at h
  · simp [ServerStats.record_reconnect]

/-- C5: once a server's `consecutive_failures` has reached
`max_reconnect_attempts`, no run of heartbeat iterations initiates any
reconnection attempt for it; any iteration that does initiate an attempt was
below the cap; and a successful (e.g. manual) `reconnect_server` resets the
counter to 0, which is what re-enables attempts. -/
theorem C5_heartbeat_cap (auto : Bool) (maxA : Nat) (toolPre : String)
    (st : SessionState) (reg : List (String × RegEntry)) (ticks : List TickInput)
    (h : maxA ≤ st.stats.consecutive_failures) :
    (heartbeatRun auto maxA toolPre st reg ticks).2.2 = 0 ∧
    (∀ (st' : SessionState) (reg' : List (String × RegEntry)) (inp : TickInput),
        0 < (heartbeatTickServer auto maxA toolPre st' reg' inp).2.2 →
        st'.stats.consecutive_failures < maxA) ∧
    (∀ (outcomes : List ConnectOutcome) (now : ℚ),
        (reconnectServer toolPre st reg outcomes now).1 = true →
        (reconnectServer toolPre st reg outcomes now).2.1.stats.consecutive_failures
          = 0) := by
  refine ⟨heartbeatRun_capped auto maxA toolPre ticks st reg h, ?_, ?_⟩
  · intro st' reg' inp hpos
    by_contra hge
    push_neg at hge
    have := (heartbeatTick_capped auto maxA toolPre st' reg' inp hge).1
    omega
  · intro outcomes now hok
    exact reconnectServer_ok_resets toolPre st reg outcomes now hok

/-- Witness for C5: a session at the cap (3 failures, cap 3) under two
heartbeat iterations with a transport that would succeed — no attempt is
made. -/
theorem C5_heartbeat_cap_witness :
    (heartbeatRun true 3 "mcp" cappedSession []
      [⟨false, [some ["t"]], 0⟩, ⟨true, [some ["t"]], 1⟩]).2.2 = 0 :=
  (C5_heartbeat_cap true 3 "mcp" cappedSession []
    [⟨false, [some ["t"]], 0⟩, ⟨true, [some ["t"]], 1⟩] (by decide)).1

/-! ## C4: the whitelist rule scenario -/

/-- C4: with the checker enabled and the single rule
`{tool: "x_*", mode: "whitelist", allowed: ["ctx:1"]}`, a caller whose
context ids include `ctx:1` is allowed on `x_foo`, a caller whose only
context id is `ctx:2` is denied on `x_foo`, and on `y_foo` the rule is
irrelevant and the configured default mode decides. -/
theorem C4_whitelist_rule (d : String) :
    (∀ ids : List String, "ctx:1" ∈ ids →
        checkWithIds true d
          [{ tool := "x_*", mode := "whitelist", allowed := ["ctx:1"] }]
          "x_foo" ids = true) ∧
    (checkWithIds true d
        [{ tool := "x_*", mode := "whitelist", allowed := ["ctx:1"] }]
        "x_foo" ["ctx:2"] = false) ∧
    (∀ ids : List String,
        checkWithIds true d
          [{ tool := "x_*", mode := "whitelist", allowed := ["ctx:1"] }]
          "y_foo" ids = decide (d = "allow_all")) := by
  have hm : matchTool "x_*" "x_foo" = true := by decide
  have hm' : matchTool "x_*" "y_foo" = false := by decide
  refine ⟨?_, ?_, ?_⟩
  · intro ids hmem
    have hany : (ids.any fun cid => matchIdList ["ctx:1"] cid) = true :=
      List.any_eq_true.mpr ⟨"ctx:1", hmem, by decide⟩
    simp [checkWithIds, checkRules, hm, hany]
  · have hr : checkRules "x_foo" ["ctx:2"]
        [{ tool := "x_*", mode := "whitelist", allowed := ["ctx:1"] }] =
        some false := by decide
    simp [checkWithIds, hr]
  · intro ids
    simp [checkWithIds, checkRules, hm']

/-- Witness for C4 at concrete inputs: deny-all default, caller ids
`["a", "ctx:1"]` on `x_foo`; and the default branch on `y_foo`. -/
theorem C4_whitelist_rule_witness :
    checkWithIds true "deny_all"
      [{ tool := "x_*", mode := "whitelist", allowed := ["ctx:1"] }]
      "x_foo" ["a", "ctx:1"] = true ∧
    checkWithIds true "deny_all"
      [{ tool := "x_*", mode := "whitelist", allowed := ["ctx:1"] }]
      "y_foo" ["ctx:1"] = decide (("deny_all" : String) = "allow_all") :=
  ⟨(C4_whitelist_rule "deny_all").1 ["a", "ctx:1"] (by decide),
   (C4_whitelist_rule "deny_all").2.2 ["ctx:1"]⟩

/-! ## C9: the cache key is order independent -/

theorem char_toNat_inj {a b : Char} (h : a.toNat = b.toNat) : a = b := by
  apply Char.ext
  unfold Char.toNat at h
  exact UInt32.ext h

theorem charListLe_total : ∀ x y : List Char,
    charListLe x y = true ∨ charListLe y x = true
  | [], _ => Or.inl rfl
  | _ :: _, [] => Or.inr rfl
  | a :: as, b :: bs => by
      by_cases h : a.toNat = b.toNat
      · rcases charListLe_total as bs with h1 | h1
        · left; simp [charListLe, h, h1]
        · right; simp [charListLe, h.symm, h1]
      · rcases Nat.lt_or_ge a.toNat b.toNat with hlt | hge
        · left; simp [charListLe, h, hlt]
        · have hlt' : b.toNat < a.toNat := by omega
          have h' : ¬b.toNat = a.toNat := by omega
          right; simp [charListLe, h', hlt']

theorem charListLe_trans : ∀ x y z : List Char,
    charListLe x y = true → charListLe y z = true → charListLe x z = true
  | [], _, _, _, _ => rfl
  | _ :: _, [], _, hxy, _ => by simp [charListLe] at hxy
  | _ :: _, _ :: _, [], _, hyz => by simp [charListLe] at hyz
  | a :: as, b :: bs, c :: cs, hxy, hyz => by
      simp only [charListLe] at hxy hyz ⊢
      by_cases hab : a.toNat = b.toNat
      · rw [if_pos hab] at hxy
        by_cases hbc : b.toNat = c.toNat
        · rw [if_pos hbc] at hyz
          rw [if_pos (hab.trans hbc)]
          exact charListLe_trans as bs cs hxy hyz
        · rw [if_neg hbc] at hyz
          have h2 : b.toNat < c.toNat := by simpa using hyz
          have hac : ¬a.toNat = c.toNat := by omega
          rw [if_neg hac]
          simp only [decide_eq_true_eq]
          omega
      · rw [if_neg hab] at hxy
        have h1 : a.toNat < b.toNat := by simpa using hxy
        by_cases hbc : b.toNat = c.toNat
        · have hac : ¬a.toNat = c.toNat := by omega
          rw [if_neg hac]
          simp only [decide_eq_true_eq]
          omega
        · rw [if_neg hbc] at hyz
          have h2 : b.toNat < c.toNat := by simpa using hyz
          have hac : ¬a.toNat = c.toNat := by omega
          rw [if_neg hac]
          simp only [decide_eq_true_eq]
          omega

theorem charListLe_antisymm : ∀ x y : List Char,
    charListLe x y = true → charListLe y x = true → x = y
  | [], [], _, _ => rfl
  | [], _ :: _, _, hyx => by simp [charListLe] at hyx
  | _ :: _, [], hxy, _ => by simp [charListLe] at hxy
  | a :: as, b :: bs, hxy, hyx => by
      simp only [charListLe] at hxy hyx
      by_cases hab : a.toNat = b.toNat
      · rw [if_pos hab] at hxy
        rw [if_pos hab.symm] at hyx
        rw [char_toNat_inj hab, charListLe_antisymm as bs hxy hyx]
      · rw [if_neg hab] at hxy
        have h1 : a.toNat < b.toNat := by simpa using hxy
        have hba : ¬b.toNat = a.toNat := by omega
        rw [if_neg hba] at hyx
        have h2 : b.toNat < a.toNat := by simpa using hyx
        omega

theorem strLeB_total (a b : String) : strLeB a b = true ∨ strLeB b a = true :=
  charListLe_total a.toList b.toList

theorem strLeB_trans {a b c : String} (h1 : strLeB a b = true)
    (h2 : strLeB b c = true) : strLeB a c = true :=
  charListLe_trans a.toList b.toList c.toList h1 h2

theorem strLeB_antisymm {a b : String} (h1 : strLeB a b = true)
    (h2 : strLeB b a = true) : a = b := by
  have h := charListLe_antisymm a.toList b.toList h1 h2
  cases a with
  | mk da =>
      cases b with
      | mk db => exact congrArg String.mk h

theorem sortPairs_eq_of_perm (l₁ l₂ : List (String × String)) (hp : l₁.Perm l₂)
    (hn : (l₁.map Prod.fst).Nodup) : sortPairs l₁ = sortPairs l₂ := by
  classical
  let r : (String × String) → (String × String) → Prop :=
    fun a b => strLeB a.1 b.1 = true
  haveI : IsTotal (String × String) r := ⟨fun a b => strLeB_total a.1 b.1⟩
  haveI : IsTrans (String × String) r := ⟨fun _ _ _ h1 h2 => strLeB_trans h1 h2⟩
  let q : (String × String) → (String × String) → Prop :=
    fun a b => a.1 ≠ b.1 ∧ r a b
  haveI : IsAntisymm (String × String) q :=
    ⟨fun a b hab hba => (hab.1 (strLeB_antisymm hab.2 hba.2)).elim⟩
  have hs₁ : (List.insertionSort r l₁).Sorted r := List.sorted_insertionSort r l₁
  have hs₂ : (List.insertionSort r l₂).Sorted r := List.sorted_insertionSort r l₂
  have hn₂ : (l₂.map Prod.fst).Nodup :=
    ((hp.map Prod.fst).nodup_iff).mp hn
  have hns₁ : ((List.insertionSort r l₁).map Prod.fst).Nodup :=
    (((List.perm_insertionSort r l₁).map Prod.fst).nodup_iff).mpr hn
  have hns₂ : ((List.insertionSort r l₂).map Prod.fst).Nodup :=
    (((List.perm_insertionSort r l₂).map Prod.fst).nodup_iff).mpr hn₂
  have hq₁ : (List.insertionSort r l₁).Sorted q :=
    (List.pairwise_map.mp hns₁).and hs₁
  have hq₂ : (List.insertionSort r l₂).Sorted q :=
    (List.pairwise_map.mp hns₂).and hs₂
  have hperm : List.Perm (List.insertionSort r l₁) (List.insertionSort r l₂) :=
    (List.perm_insertionSort r l₁).trans
      (hp.trans (List.perm_insertionSort r l₂).symm)
  exact List.eq_of_perm_of_sorted hperm hq₁ hq₂

theorem dumpsFields_listToObj (l : List (String × JsonVal)) :
    dumpsFields (listToObj l) = l.map fun kv => (kv.1, dumpsVal kv.2) := by
  induction l with
  | nil => rfl
  | cons kv rest ih => simp [listToObj, dumpsFields, ih]

/-- C9: `_generate_key` is invariant under the insertion order of the
argument dictionary — two argument dicts with exactly the same key/value
pairs hash to the same cache key, because `json.dumps(..., sort_keys=True)`
canonicalizes the field order. -/
theorem C9_key_order_independent (t : String) (a1 a2 : List (String × JsonVal))
    (hperm : a1.Perm a2) (hnodup : (a1.map Prod.fst).Nodup) :
    generateKey t a1 = generateKey t a2 := by
  unfold generateKey md5Model
  suffices h : dumpsVal (.jobj (listToObj a1)) = dumpsVal (.jobj (listToObj a2)) by
    rw [h]
  simp only [dumpsVal, dumpsFields_listToObj]
  have hs : sortPairs (a1.map fun kv => (kv.1, dumpsVal kv.2)) =
      sortPairs (a2.map fun kv => (kv.1, dumpsVal kv.2)) := by
    apply sortPairs_eq_of_perm
    · exact hperm.map _
    · have hfst : ((a1.map fun kv => (kv.1, dumpsVal kv.2)).map Prod.fst) =
          a1.map Prod.fst := by
        rw [List.map_map]
        rfl
      rw [hfst]
      exact hnodup
  rw [hs]

/-- Witness for C9: the same two-field dict in both insertion orders. -/
theorem C9_key_order_independent_witness :
    generateKey "t" [("b", .jint 1), ("a", .jstr "x")] =
      generateKey "t" [("a", .jstr "x"), ("b", .jint 1)] :=
  C9_key_order_independent "t" [("b", .jint 1), ("a", .jstr "x")]
    [("a", .jstr "x"), ("b", .jint 1)]
    (List.Perm.swap ("a", JsonVal.jstr "x") ("b", JsonVal.jint 1) []) (by decide)

/-! ## C3: cache get/set round trip, expiry, and LRU eviction -/

theorem evictLRU_at_cap (l : List (String × CacheEntry)) :
    evictLRU l.length l = l.tail := by
  cases l with
  | nil => rfl
  | cons x xs =>
      have hstep : evictLRU (x :: xs).length (x :: xs) = evictLRU (x :: xs).length xs := by
        simp only [evictLRU, le_refl, if_pos]
      rw [hstep]
      cases xs with
      | nil => rfl
      | cons y ys =>
          simp only [List.length_cons, evictLRU]
          rw [if_neg (by omega)]
          rfl

theorem cacheSet_fields (c : CacheState) (now : ℚ) (t : String)
    (args : List (String × JsonVal)) (r : String) :
    (cacheSet c now t args r).enabled = c.enabled ∧
    (cacheSet c now t args r).exclude_patterns = c.exclude_patterns ∧
    (cacheSet c now t args r).ttl = c.ttl ∧
    (cacheSet c now t args r).max_entries = c.max_entries := by
  unfold cacheSet
  by_cases h1 : c.enabled = true
  · by_cases h2 : isExcluded c.exclude_patterns t = true
    · simp [h1, h2]
    · by_cases h3 : dictHas (generateKey t args) c.entries = true <;>
        simp [h1, h2, h3]
  · simp [h1]

theorem cacheSet_entries_key (c : CacheState) (now : ℚ) (t : String)
    (args : List (String × JsonVal)) (r : String)
    (hen : c.enabled = true) (hex : isExcluded c.exclude_patterns t = false) :
    dictGet (generateKey t args) (cacheSet c now t args r).entries =
      some (mkCacheEntry t (generateKey t args) r now c.ttl) := by
  unfold cacheSet
  rw [hen, hex]
  simp only [not_true, Bool.false_eq_true, ite_false, if_neg, not_false_iff,
    Bool.true_eq_false, if_false]
  by_cases hh : dictHas (generateKey t args) c.entries = true
  · simp only [hh, ite_true, if_pos]
    rw [dictGet_append_of_none (dictGet_dictDelete _ _) _]
    simp [dictGet]
  · simp only [hh, ite_false, if_neg, Bool.not_eq_true]
    have hnone : dictGet (generateKey t args) c.entries = none := by
      unfold dictHas at hh
      cases hget : dictGet (generateKey t args) c.entries with
      | none => rfl
      | some v => rw [hget] at hh; simp at hh
    have h1 : dictGet (generateKey t args) (evictIfNeeded c now) = none := by
      unfold evictIfNeeded
      exact dictGet_evictLRU_of_none _ (dictGet_filter_of_none _ hnone)
    rw [dictGet_append_of_none h1 _]
    simp [dictGet]

theorem cacheGet_found (c' : CacheState) (now' : ℚ) (t : String)
    (args : List (String × JsonVal)) (e : CacheEntry)
    (hen : c'.enabled = true) (hex : isExcluded c'.exclude_patterns t = false)
    (hget : dictGet (generateKey t args) c'.entries = some e) :
    (cacheGet c' now' t args).1 =
      (if e.expires_at < now' then none else some e.result) := by
  unfold cacheGet
  rw [hen, hex]
  simp only [not_true, Bool.false_eq_true, ite_false, if_neg, not_false_iff, hget]
  by_cases hexp : e.expires_at < now'
  · simp [hexp]
  · simp [hexp]

/-- C3: on an enabled cache with a non-excluded tool, `set(t, a, r)` followed
immediately by `get(t, a)` returns `r` while `expires_at` (set time plus
TTL) has not passed; a `get(t, a)` after `expires_at` has elapsed misses;
and an insert at capacity (with nothing expired, key fresh) evicts exactly
the least-recently-used entry — the front of the order — first. -/
theorem C3_cache_semantics (c : CacheState) (now now' : ℚ) (t : String)
    (args : List (String × JsonVal)) (r : String)
    (hen : c.enabled = true) (hex : isExcluded c.exclude_patterns t = false) :
    (now' ≤ now + c.ttl →
      (cacheGet (cacheSet c now t args r) now' t args).1 = some r) ∧
    (now + c.ttl < now' →
      (cacheGet (cacheSet c now t args r) now' t args).1 = none) ∧
    (dictHas (generateKey t args) c.entries = false →
     (∀ e ∈ c.entries, now ≤ e.2.expires_at) →
     c.entries.length = c.max_entries →
     (cacheSet c now t args r).entries =
       c.entries.tail ++
         [(generateKey t args, mkCacheEntry t (generateKey t args) r now c.ttl)]) := by
  obtain ⟨hf1, hf2, hf3, hf4⟩ := cacheSet_fields c now t args r
  have hen' : (cacheSet c now t args r).enabled = true := by rw [hf1]; exact hen
  have hex' : isExcluded (cacheSet c now t args r).exclude_patterns t = false := by
    rw [hf2]; exact hex
  have hkey := cacheSet_entries_key c now t args r hen hex
  have hfound := cacheGet_found (cacheSet c now t args r) now' t args
    (mkCacheEntry t (generateKey t args) r now c.ttl) hen' hex' hkey
  refine ⟨?_, ?_, ?_⟩
  · intro hle
    rw [hfound, if_neg (by simpa [mkCacheEntry] using not_lt.mpr hle)]
    rfl
  · intro hgt
    rw [hfound, if_pos (by simpa [mkCacheEntry] using hgt)]
  · intro hfresh hunexp hlen
    unfold cacheSet
    rw [hen, hex]
    simp only [not_true, Bool.false_eq_true, ite_false, if_neg, not_false_iff,
      hfresh, if_false]
    have hpurge : (c.entries.filter fun p => decide (now ≤ p.2.expires_at)) =
        c.entries := by
      refine List.filter_eq_self.mpr ?_
      intro e he
      simpa using hunexp e he
    unfold evictIfNeeded
    have hev := evictLRU_at_cap c.entries
    rw [hlen] at hev
    rw [hpurge, hev]

/-- Witness for C3: a full one-slot cache receives a fresh entry at time 1,
the old front entry is evicted, and reading back at time 2 hits. -/
theorem C3_cache_semantics_witness :
    (cacheGet (cacheSet cacheFix 1 "t" [] "r") 2 "t" []).1 = some "r" ∧
    (cacheSet cacheFix 1 "t" [] "r").entries =
      cacheFix.entries.tail ++
        [(generateKey "t" [], mkCacheEntry "t" (generateKey "t" []) "r" 1 cacheFix.ttl)] :=
  ⟨(C3_cache_semantics cacheFix 1 2 "t" [] "r" rfl rfl).1 (by norm_num [cacheFix]),
   (C3_cache_semantics cacheFix 1 2 "t" [] "r" rfl rfl).2.2 (by decide)
     (by simp [cacheFix, mkCacheEntry]) rfl⟩

end MCPBridge
